import Mathlib

/-!
Shallow embedding of the camera-event logger (`src/script.js` and
`src/unnamed/part_000`, the swipeable variant).  The browser environment
(clock reads, locale/ISO time rendering, snapshot encoding) is supplied as
explicit inputs; `localStorage` under the `camera_events` key is modelled by
the `Stored` type, where `malformed` stands for a present value on which
`JSON.parse` throws.  DOM side effects are projected to the fields of
`AppState` that the claims inspect (history items by id, shown toasts,
dashboard writes).
-/

namespace Cam

/-- An event record as built by the `eventButton` click handler
(`part_000` lines 79-85): id from `Date.now()`, two rendered time strings,
the fixed camera label and the snapshot payload. -/
structure EventRecord where
  id : Int
  timestamp : String
  formattedTime : String
  cameraName : String
  imageData : String
deriving Repr, DecidableEq

/-- The value held under the `camera_events` localStorage key: absent,
present but not parseable by `JSON.parse`, or a parsed record list. -/
inductive Stored where
  | absent
  | malformed
  | valid (records : List EventRecord)
deriving Repr, DecidableEq

/-- The simplified copy built by `sendToDashboard` in `part_000`
(lines 149-154): the record minus `formattedTime`. -/
structure DashboardEvent where
  id : Int
  timestamp : String
  cameraName : String
  imageData : String
deriving Repr, DecidableEq

/-- Module-level state of the page: the `stream` handle, the in-memory
`events` array, the persisted mirror, the history items currently in the
DOM (ids, newest first), toasts shown so far, and the dashboard hand-off
writes (`dashboard_event_<id>` keys). -/
structure AppState where
  stream : Option Unit
  events : List EventRecord
  storage : Stored
  domItems : List Int
  toasts : List String
  dashboardWrites : List (Int × DashboardEvent)
deriving Repr, DecidableEq

/-- State right after the module loads: `stream = null`, `events = []`,
nothing persisted yet, empty page. -/
def initialState : AppState :=
  { stream := none, events := [], storage := .absent, domItems := [],
    toasts := [], dashboardWrites := [] }

def CAMERA_NAME : String := "Camera 1"

/-- `showNotification` (`part_000` lines 164-172): records the toast text. -/
def showNotification (st : AppState) (message : String) : AppState :=
  { st with toasts := st.toasts ++ [message] }

/-- `saveEvent` (`part_000` lines 101-104): push onto `events`, then write
the whole array to localStorage. -/
def saveEvent (st : AppState) (event : EventRecord) : AppState :=
  { st with events := st.events ++ [event],
            storage := .valid (st.events ++ [event]) }

/-- `addEventToHistory` (`part_000` lines 119-143) as far as the data model
sees it: a new history item carrying the event id is inserted at the top of
the list. -/
def addEventToHistory (st : AppState) (event : EventRecord) : AppState :=
  { st with domItems := event.id :: st.domItems }

/-- `sendToDashboard` (`part_000` lines 146-161): writes the simplified
copy under the per-event key. The `window.open` navigation is external. -/
def sendToDashboard (st : AppState) (event : EventRecord) : AppState :=
  { st with dashboardWrites := st.dashboardWrites ++
      [(event.id, { id := event.id, timestamp := event.timestamp,
                    cameraName := event.cameraName, imageData := event.imageData })] }

/-- One user-triggered capture as the handler observes the environment: the
`Date.now()` reading and the rendered `toISOString`, `toLocaleString` and
`toDataURL` strings for that instant. -/
structure CaptureInput where
  now : Int
  isoTimestamp : String
  localeTimestamp : String
  imageData : String
deriving Repr, DecidableEq

/-- The record literal of `part_000` lines 79-85. -/
def mkEvent (inp : CaptureInput) : EventRecord :=
  { id := inp.now, timestamp := inp.isoTimestamp,
    formattedTime := inp.localeTimestamp, cameraName := CAMERA_NAME,
    imageData := inp.imageData }

/-- The `eventButton` click handler (`part_000` lines 69-98): bail out with
an error toast when there is no stream; otherwise build the record, save it,
add it to the history, forward it, and toast success. -/
def eventButtonClick (st : AppState) (inp : CaptureInput) : AppState :=
  match st.stream with
  | none => showNotification st "Camera not available"
  | some _ =>
      showNotification
        (sendToDashboard
          (addEventToHistory (saveEvent st (mkEvent inp)) (mkEvent inp))
          (mkEvent inp))
        "Event reported successfully"

/-- A sequence of capture clicks, folded left in event order. -/
def runCaptures (st : AppState) (ins : List CaptureInput) : AppState :=
  ins.foldl eventButtonClick st

/-- `loadEvents` (`part_000` lines 107-116): if nothing is stored the state
is untouched; if the stored string is malformed, `JSON.parse` throws (the
error propagates out of the handler); otherwise `events` is replaced by the
parsed list and each record is added to the history display. -/
def loadEvents (st : AppState) : Except Unit AppState :=
  match st.storage with
  | .absent => .ok st
  | .malformed => .error ()
  | .valid l => .ok (l.foldl addEventToHistory { st with events := l })

/-- `deleteHistoryItem` (`part_000` lines 289-316): synchronously filter the
record out of `events` and rewrite localStorage; the DOM removal and the
deleted toast run only in the 300ms `setTimeout` callback, returned here as
the pending item id. -/
def deleteHistoryItem (st : AppState) (itemId : Int) : AppState × Int :=
  ({ st with events := st.events.filter (fun event => event.id != itemId),
             storage := .valid (st.events.filter (fun event => event.id != itemId)) },
   itemId)

/-- The `setTimeout` callback of `deleteHistoryItem` (lines 312-315):
`item.remove()` and the deleted toast, 300ms later. It never touches
`events` or the storage. -/
def runDeferredRemoval (st : AppState) (itemId : Int) : AppState :=
  showNotification { st with domItems := st.domItems.erase itemId } "Event deleted"

/-!
Gesture recognizer: the per-item closure state of `makeHistoryItemSwipeable`
(`part_000` lines 181-286): `startX`, `currentTranslate`, `isDragging`, plus
the presence of the `delete-ready` class on the item. `startX` is undefined
in the source until the first drag-start and is never read while
`isDragging` is false; it is modelled as 0 initially.
-/
structure DragState where
  startX : Int
  currentTranslate : Int
  isDragging : Bool
  deleteReady : Bool
deriving Repr, DecidableEq

/-- Closure state right after `makeHistoryItemSwipeable` attaches. -/
def dragInit : DragState :=
  { startX := 0, currentTranslate := 0, isDragging := false, deleteReady := false }

/-- `handleTouchStart` (lines 193-197): record the origin and mark the drag
active (the `transition = none` style is not part of the data model). -/
def handleTouchStart (s : DragState) (clientX : Int) : DragState :=
  { s with startX := clientX, isDragging := true }

/-- `handleMouseDown` (lines 236-246): same state effect as touch-start; the
document-level listener wiring and `preventDefault` are not data. -/
def handleMouseDown (s : DragState) (clientX : Int) : DragState :=
  { s with startX := clientX, isDragging := true }

/-- `handleTouchMove` (lines 199-219): ignore when not dragging; only a
leftward diff updates the translate, and the `delete-ready` class is set
exactly when the new translate is below -80. Rightward diffs change
nothing. -/
def handleTouchMove (s : DragState) (clientX : Int) : DragState :=
  if s.isDragging = false then s
  else if clientX - s.startX < 0 then
    { s with currentTranslate := clientX - s.startX,
             deleteReady := decide (clientX - s.startX < -80) }
  else s

/-- `handleMouseMove` (lines 248-265): identical update logic to the touch
path. -/
def handleMouseMove (s : DragState) (clientX : Int) : DragState :=
  if s.isDragging = false then s
  else if clientX - s.startX < 0 then
    { s with currentTranslate := clientX - s.startX,
             deleteReady := decide (clientX - s.startX < -80) }
  else s

/-- Outcome of a drag-end: commit calls `deleteHistoryItem`, revert animates
back to zero offset. -/
inductive EndOutcome where
  | commit
  | revert
deriving Repr, DecidableEq

/-- `handleTouchEnd` (lines 221-234): clear `isDragging`; commit iff the
stored translate is below -100, otherwise reset translate and affordance. -/
def handleTouchEnd (s : DragState) : DragState × EndOutcome :=
  if s.currentTranslate < -100 then
    ({ s with isDragging := false }, .commit)
  else
    ({ s with isDragging := false, currentTranslate := 0, deleteReady := false },
     .revert)

/-- `handleMouseUp` (lines 267-285): unlike the touch path it returns early
when no drag is active; otherwise the same decision as `handleTouchEnd`. -/
def handleMouseUp (s : DragState) : DragState × Option EndOutcome :=
  if s.isDragging = false then (s, none)
  else if s.currentTranslate < -100 then
    ({ s with isDragging := false }, some .commit)
  else
    ({ s with isDragging := false, currentTranslate := 0, deleteReady := false },
     some .revert)

/-- A sequence of touch-move events, in order. -/
def runTouchMoves (s : DragState) (xs : List Int) : DragState :=
  xs.foldl handleTouchMove s

/-- A sequence of mouse-move events, in order. -/
def runMouseMoves (s : DragState) (xs : List Int) : DragState :=
  xs.foldl handleMouseMove s

/-- `handleTouchEnd` together with its effect on the store: on commit it
invokes `deleteHistoryItem item` (line 227), on revert the store is
untouched. Returns the new app state, the settled drag state, and the
pending deferred removal if a deletion was committed. -/
def endDragTouch (st : AppState) (itemId : Int) (s : DragState) :
    AppState × DragState × Option Int :=
  match handleTouchEnd s with
  | (s2, .commit) => ((deleteHistoryItem st itemId).1, s2,
                      some (deleteHistoryItem st itemId).2)
  | (s2, .revert) => (st, s2, none)

/-- `handleMouseUp` together with its effect on the store (line 278). -/
def endDragMouse (st : AppState) (itemId : Int) (s : DragState) :
    AppState × DragState × Option Int :=
  match handleMouseUp s with
  | (s2, some .commit) => ((deleteHistoryItem st itemId).1, s2,
                           some (deleteHistoryItem st itemId).2)
  | (s2, _) => (st, s2, none)

/-! Helper lemmas. -/

lemma handleMouseMove_eq_handleTouchMove : handleMouseMove = handleTouchMove := rfl

lemma runMouseMoves_eq_runTouchMoves : runMouseMoves = runTouchMoves := rfl

lemma handleMouseDown_eq_handleTouchStart : handleMouseDown = handleTouchStart := rfl

lemma handleTouchMove_startX (s : DragState) (x : Int) :
    (handleTouchMove s x).startX = s.startX := by
  unfold handleTouchMove; split_ifs <;> rfl

lemma handleTouchMove_isDragging (s : DragState) (x : Int) :
    (handleTouchMove s x).isDragging = s.isDragging := by
  unfold handleTouchMove; split_ifs <;> rfl

lemma runTouchMoves_startX (s : DragState) (xs : List Int) :
    (runTouchMoves s xs).startX = s.startX := by
  induction xs generalizing s with
  | nil => rfl
  | cons x xs ih =>
      show (runTouchMoves (handleTouchMove s x) xs).startX = s.startX
      rw [ih, handleTouchMove_startX]

lemma runTouchMoves_isDragging (s : DragState) (xs : List Int) :
    (runTouchMoves s xs).isDragging = s.isDragging := by
  induction xs generalizing s with
  | nil => rfl
  | cons x xs ih =>
      show (runTouchMoves (handleTouchMove s x) xs).isDragging = s.isDragging
      rw [ih, handleTouchMove_isDragging]

lemma runTouchMoves_append (s : DragState) (xs ys : List Int) :
    runTouchMoves s (xs ++ ys) = runTouchMoves (runTouchMoves s xs) ys :=
  List.foldl_append ..

/-- Invariant of the move handlers: the `delete-ready` class is present
exactly when the stored translate is below -80. -/
def ReadyInv (s : DragState) : Prop :=
  s.deleteReady = decide (s.currentTranslate < -80)

lemma readyInv_handleTouchMove {s : DragState} (x : Int) (h : ReadyInv s) :
    ReadyInv (handleTouchMove s x) := by
  unfold ReadyInv handleTouchMove at *
  split_ifs <;> simp_all

lemma readyInv_runTouchMoves {s : DragState} (xs : List Int) (h : ReadyInv s) :
    ReadyInv (runTouchMoves s xs) := by
  induction xs generalizing s with
  | nil => exact h
  | cons x xs ih =>
      exact ih (readyInv_handleTouchMove x h)

/-- A move whose diff is not leftward leaves the closure state unchanged. -/
lemma handleTouchMove_rightward {s : DragState} {x : Int}
    (h : 0 ≤ x - s.startX) : handleTouchMove s x = s := by
  unfold handleTouchMove
  split_ifs with h1 h2
  · rfl
  · omega
  · rfl

lemma runTouchMoves_rightward {s : DragState} {xs : List Int}
    (h : ∀ x ∈ xs, 0 ≤ x - s.startX) : runTouchMoves s xs = s := by
  induction xs with
  | nil => rfl
  | cons x xs ih =>
      show runTouchMoves (handleTouchMove s x) xs = s
      rw [handleTouchMove_rightward (h x (by simp))]
      exact ih (fun y hy => h y (by simp [hy]))

lemma foldl_addEventToHistory_events (st : AppState) (l : List EventRecord) :
    (l.foldl addEventToHistory st).events = st.events := by
  induction l generalizing st with
  | nil => rfl
  | cons e l ih =>
      show (l.foldl addEventToHistory (addEventToHistory st e)).events = st.events
      rw [ih]; rfl

lemma eventButtonClick_stream (st : AppState) (inp : CaptureInput) :
    (eventButtonClick st inp).stream = st.stream := by
  cases h : st.stream <;>
    simp [eventButtonClick, h, showNotification, sendToDashboard,
          addEventToHistory, saveEvent]

lemma eventButtonClick_events_some (st : AppState) (inp : CaptureInput)
    (h : st.stream = some ()) :
    (eventButtonClick st inp).events = st.events ++ [mkEvent inp] := by
  simp [eventButtonClick, h, showNotification, sendToDashboard,
        addEventToHistory, saveEvent]

lemma runCaptures_events (st : AppState) (ins : List CaptureInput)
    (h : st.stream = some ()) :
    (runCaptures st ins).events = st.events ++ ins.map mkEvent := by
  induction ins generalizing st with
  | nil => simp [runCaptures]
  | cons inp ins ih =>
      show (runCaptures (eventButtonClick st inp) ins).events = _
      rw [ih _ (by rw [eventButtonClick_stream, h]),
          eventButtonClick_events_some st inp h]
      simp

/-! Claim theorems. -/

/-- Claim C1: a committed deletion removes the record from the in-memory
store and rewrites persistence synchronously, before the deferred 300ms
visual removal fires: any state holding the freshly persisted storage
reloads successfully to a collection without the deleted id, and the
deferred callback changes neither the event list nor the storage. -/
theorem C1_commit_persists_before_visual_removal (st : AppState) (itemId : Int) :
    (∀ st2 : AppState, st2.storage = (deleteHistoryItem st itemId).1.storage →
      ∃ st3, loadEvents st2 = Except.ok st3 ∧ ∀ e ∈ st3.events, e.id ≠ itemId)
  ∧ (runDeferredRemoval (deleteHistoryItem st itemId).1
        (deleteHistoryItem st itemId).2).events
      = (deleteHistoryItem st itemId).1.events
  ∧ (runDeferredRemoval (deleteHistoryItem st itemId).1
        (deleteHistoryItem st itemId).2).storage
      = (deleteHistoryItem st itemId).1.storage := by
  refine ⟨?_, rfl, rfl⟩
  intro st2 h2
  have hst : (deleteHistoryItem st itemId).1.storage
      = Stored.valid (st.events.filter (fun event => event.id != itemId)) := rfl
  rw [hst] at h2
  have hl : loadEvents st2
      = Except.ok ((st.events.filter (fun event => event.id != itemId)).foldl
          addEventToHistory
          { st2 with events := st.events.filter (fun event => event.id != itemId) }) := by
    simp [loadEvents, h2]
  refine ⟨_, hl, ?_⟩
  intro e he
  rw [foldl_addEventToHistory_events] at he
  have he2 : e ∈ st.events.filter (fun event => event.id != itemId) := he
  have := (List.mem_filter.mp he2).2
  simpa [bne_iff_ne] using this

/-- Witness for C1 at a concrete two-record store, deleting id 5. -/
theorem C1_witness :
    ∃ st3,
      loadEvents { initialState with
          storage := Stored.valid [⟨7, "t7", "f7", "Camera 1", "img7"⟩] }
        = Except.ok st3
      ∧ ∀ e ∈ st3.events, e.id ≠ (5 : Int) :=
  (C1_commit_persists_before_visual_removal
      { initialState with
          events := [⟨5, "t5", "f5", "Camera 1", "img5"⟩,
                     ⟨7, "t7", "f7", "Camera 1", "img7"⟩],
          storage := Stored.valid [⟨5, "t5", "f5", "Camera 1", "img5"⟩,
                                   ⟨7, "t7", "f7", "Camera 1", "img7"⟩] }
      5).1
    { initialState with
        storage := Stored.valid [⟨7, "t7", "f7", "Camera 1", "img7"⟩] }
    (by decide)

/-- Claim C2: deletion is idempotent on the store — deleting the same id
twice equals deleting it once (whole resulting app state), and deleting an
id absent from the store leaves the event list unchanged. -/
theorem C2_delete_idempotent (st : AppState) (itemId : Int) :
    (deleteHistoryItem (deleteHistoryItem st itemId).1 itemId).1
      = (deleteHistoryItem st itemId).1
  ∧ ((∀ e ∈ st.events, e.id ≠ itemId) →
      (deleteHistoryItem st itemId).1.events = st.events) := by
  constructor
  · have h : (st.events.filter (fun event => event.id != itemId)).filter
        (fun event => event.id != itemId)
        = st.events.filter (fun event => event.id != itemId) :=
      List.filter_eq_self.mpr (fun a ha => (List.mem_filter.mp ha).2)
    simp [deleteHistoryItem, h]
  · intro h
    have h2 : st.events.filter (fun event => event.id != itemId) = st.events :=
      List.filter_eq_self.mpr (fun a ha => by simpa [bne_iff_ne] using h a ha)
    simp [deleteHistoryItem, h2]

/-- Witness for C2: deleting an id (99) that is not in a concrete one-record
store leaves the event list unchanged. -/
theorem C2_witness :
    (deleteHistoryItem
        { initialState with events := [⟨5, "t5", "f5", "Camera 1", "img5"⟩] }
        99).1.events
      = ({ initialState with
            events := [⟨5, "t5", "f5", "Camera 1", "img5"⟩] } : AppState).events :=
  (C2_delete_idempotent
      { initialState with events := [⟨5, "t5", "f5", "Camera 1", "img5"⟩] }
      99).2 (by decide)

/-- Counterexample to claim C3: a present but malformed stored value does
not load as an empty collection — `JSON.parse` throws and the load fails
with an error. -/
theorem C3_counterexample :
    loadEvents { initialState with storage := Stored.malformed }
      = Except.error () := rfl

/-- Claim C3 amended: an absent stored value loads as "no prior events"
(state unchanged, so a fresh start keeps an empty collection, no error);
a malformed stored value makes the load fail with a parse error instead of
an empty collection. -/
theorem C3_amended_load_behavior (st : AppState) :
    (st.storage = Stored.absent → loadEvents st = Except.ok st)
  ∧ (st.storage = Stored.malformed → loadEvents st = Except.error ()) := by
  constructor <;> intro h <;> simp [loadEvents, h]

/-- Witness for the amended C3 on the fresh initial state. -/
theorem C3_witness : loadEvents initialState = Except.ok initialState :=
  (C3_amended_load_behavior initialState).1 rfl

lemma handleTouchEnd_commit_iff (s : DragState) :
    (handleTouchEnd s).2 = EndOutcome.commit ↔ s.currentTranslate < -100 := by
  unfold handleTouchEnd
  split_ifs with h <;> simp [h]

lemma handleMouseUp_commit_iff (s : DragState) (hd : s.isDragging = true) :
    (handleMouseUp s).2 = some EndOutcome.commit ↔ s.currentTranslate < -100 := by
  unfold handleMouseUp
  rw [hd]
  split_ifs with h1 h2 <;> simp_all

lemma endDragTouch_revert {st : AppState} {itemId : Int} {s : DragState}
    (h : (handleTouchEnd s).2 = EndOutcome.revert) :
    (endDragTouch st itemId s).1 = st := by
  unfold endDragTouch
  rcases he : handleTouchEnd s with ⟨s2, o⟩
  rw [he] at h
  cases o
  · simp at h
  · rfl

lemma endDragTouch_commit {st : AppState} {itemId : Int} {s : DragState}
    (h : (handleTouchEnd s).2 = EndOutcome.commit) :
    (endDragTouch st itemId s).1 = (deleteHistoryItem st itemId).1 := by
  unfold endDragTouch
  rcases he : handleTouchEnd s with ⟨s2, o⟩
  rw [he] at h
  cases o
  · rfl
  · simp at h

lemma endDragMouse_revert {st : AppState} {itemId : Int} {s : DragState}
    (h : (handleMouseUp s).2 ≠ some EndOutcome.commit) :
    (endDragMouse st itemId s).1 = st := by
  unfold endDragMouse
  rcases he : handleMouseUp s with ⟨s2, o⟩
  rw [he] at h
  rcases o with _ | o
  · rfl
  · cases o
    · simp at h
    · rfl

lemma endDragMouse_commit {st : AppState} {itemId : Int} {s : DragState}
    (h : (handleMouseUp s).2 = some EndOutcome.commit) :
    (endDragMouse st itemId s).1 = (deleteHistoryItem st itemId).1 := by
  unfold endDragMouse
  rcases he : handleMouseUp s with ⟨s2, o⟩
  rw [he] at h
  rcases o with _ | o
  · simp at h
  · cases o
    · rfl
    · simp at h

/-- Claim C4: on both input paths, a drag can only end in the hard commit
outcome if the soft delete-ready affordance was shown at some point of the
same drag: whenever drag-end commits, some take of the move sequence already
has `deleteReady` set. -/
theorem C4_commit_requires_affordance (x0 : Int) (moves : List Int) :
    ((handleTouchEnd (runTouchMoves (handleTouchStart dragInit x0) moves)).2
        = EndOutcome.commit →
      ∃ n ≤ moves.length,
        (runTouchMoves (handleTouchStart dragInit x0) (moves.take n)).deleteReady
          = true)
  ∧ ((handleMouseUp (runMouseMoves (handleMouseDown dragInit x0) moves)).2
        = some EndOutcome.commit →
      ∃ n ≤ moves.length,
        (runMouseMoves (handleMouseDown dragInit x0) (moves.take n)).deleteReady
          = true) := by
  have hready : ReadyInv (runTouchMoves (handleTouchStart dragInit x0) moves) :=
    readyInv_runTouchMoves moves (by simp [ReadyInv, handleTouchStart, dragInit])
  have key : (runTouchMoves (handleTouchStart dragInit x0) moves).currentTranslate < -100 →
      ∃ n ≤ moves.length,
        (runTouchMoves (handleTouchStart dragInit x0) (moves.take n)).deleteReady
          = true := by
    intro hlt
    refine ⟨moves.length, le_refl _, ?_⟩
    rw [List.take_length]
    rw [ReadyInv] at hready
    rw [hready]
    simp only [decide_eq_true_eq]
    omega
  constructor
  · intro hc
    exact key ((handleTouchEnd_commit_iff _).mp hc)
  · intro hc
    rw [runMouseMoves_eq_runTouchMoves, handleMouseDown_eq_handleTouchStart] at hc ⊢
    have hd : (runTouchMoves (handleTouchStart dragInit x0) moves).isDragging = true := by
      rw [runTouchMoves_isDragging]; rfl
    exact key ((handleMouseUp_commit_iff _ hd).mp hc)

/-- Witness for C4: a single move to -120 from origin 0 commits, and the
affordance was indeed shown. -/
theorem C4_witness :
    ∃ n ≤ ([(-120 : Int)]).length,
      (runTouchMoves (handleTouchStart dragInit 0)
          (([(-120 : Int)]).take n)).deleteReady = true :=
  (C4_commit_requires_affordance 0 [-120]).1 (by decide)

/-- Claim C5: a drag whose moves all have nonnegative diff keeps the applied
offset at 0 throughout (every take of the move list), never shows the
delete-ready affordance, and both drag-end paths take the revert outcome,
leaving the app state unchanged. -/
theorem C5_rightward_clamp (st : AppState) (itemId : Int) (x0 : Int)
    (moves : List Int) (h : ∀ m ∈ moves, 0 ≤ m - x0) :
    (∀ n : Nat,
       (runTouchMoves (handleTouchStart dragInit x0) (moves.take n)).currentTranslate = 0
     ∧ (runTouchMoves (handleTouchStart dragInit x0) (moves.take n)).deleteReady = false)
  ∧ (handleTouchEnd (runTouchMoves (handleTouchStart dragInit x0) moves)).2
      = EndOutcome.revert
  ∧ (endDragTouch st itemId (runTouchMoves (handleTouchStart dragInit x0) moves)).1 = st
  ∧ (handleMouseUp (runMouseMoves (handleMouseDown dragInit x0) moves)).2
      = some EndOutcome.revert
  ∧ (endDragMouse st itemId (runMouseMoves (handleMouseDown dragInit x0) moves)).1
      = st := by
  have hstart : (handleTouchStart dragInit x0).startX = x0 := rfl
  have hnoop : ∀ n : Nat,
      runTouchMoves (handleTouchStart dragInit x0) (moves.take n)
        = handleTouchStart dragInit x0 := by
    intro n
    exact runTouchMoves_rightward
      (fun y hy => by rw [hstart]; exact h y (List.mem_of_mem_take hy))
  have hfull : runTouchMoves (handleTouchStart dragInit x0) moves
      = handleTouchStart dragInit x0 :=
    runTouchMoves_rightward (fun y hy => by rw [hstart]; exact h y hy)
  have hend : (handleTouchEnd (runTouchMoves (handleTouchStart dragInit x0) moves)).2
      = EndOutcome.revert := by
    rw [hfull]
    rfl
  have hup : (handleMouseUp (runTouchMoves (handleTouchStart dragInit x0) moves)).2
      = some EndOutcome.revert := by
    rw [hfull]
    rfl
  refine ⟨fun n => by rw [hnoop n]; exact ⟨rfl, rfl⟩, hend,
          endDragTouch_revert hend, ?_, ?_⟩
  · rw [runMouseMoves_eq_runTouchMoves, handleMouseDown_eq_handleTouchStart]
    exact hup
  · rw [runMouseMoves_eq_runTouchMoves, handleMouseDown_eq_handleTouchStart]
    exact endDragMouse_revert (by rw [hup]; simp)

/-- Witness for C5: two rightward moves from origin 0 end in revert. -/
theorem C5_witness :
    (handleTouchEnd (runTouchMoves (handleTouchStart dragInit 0)
        [(5 : Int), 10])).2 = EndOutcome.revert :=
  (C5_rightward_clamp initialState 1 0 [5, 10] (by decide)).2.1

/-- Counterexample to claim C6: a second drag-start while a session is
active is not ignored — it resets the session's origin coordinate (here
from 100 to 50). -/
theorem C6_counterexample :
    (handleTouchStart dragInit 100).isDragging = true
  ∧ (handleTouchStart dragInit 100).startX = 100
  ∧ (handleTouchStart (handleTouchStart dragInit 100) 50).startX = 50 := by
  decide

/-- Claim C6 amended: a further drag-start (touch or mouse) during an
active session does not spawn an independent second session, but it
re-captures the origin: `startX` is set to the new coordinate while
`isDragging`, `currentTranslate` and `deleteReady` are kept. -/
theorem C6_amended_second_start_recaptures_origin (s : DragState) (x : Int)
    (h : s.isDragging = true) :
    handleTouchStart s x = { s with startX := x }
  ∧ handleMouseDown s x = { s with startX := x } := by
  cases s
  simp_all [handleTouchStart, handleMouseDown]

/-- Witness for the amended C6 at a concrete active session. -/
theorem C6_witness :
    handleTouchStart (handleTouchStart dragInit 100) 50
      = { handleTouchStart dragInit 100 with startX := 50 } :=
  (C6_amended_second_start_recaptures_origin
      (handleTouchStart dragInit 100) 50 (by decide)).1

/-- Counterexample to claim C7: ids come from `Date.now()`, so two captures
that read the same millisecond instant produce records with equal ids — the
store then holds a duplicate id. -/
theorem C7_counterexample :
    ¬ ((runCaptures { initialState with stream := some () }
          [⟨1000, "a", "b", "c"⟩, ⟨1000, "a", "b", "c"⟩]).events.map
         EventRecord.id).Nodup := by
  decide

/-- Claim C7 amended: provided the `Date.now()` readings of the captures
are strictly increasing, the ids in the store (from an empty store) are
strictly increasing and pairwise distinct; and deletion only removes —
every surviving record is one of the original records, unmutated. -/
theorem C7_amended_ids_unique_monotone (ins : List CaptureInput)
    (hmono : (ins.map CaptureInput.now).Pairwise (· < ·)) :
    ((runCaptures { initialState with stream := some () } ins).events.map
        EventRecord.id).Pairwise (· < ·)
  ∧ ((runCaptures { initialState with stream := some () } ins).events.map
        EventRecord.id).Nodup
  ∧ (∀ (st : AppState) (itemId : Int),
       ∀ e ∈ (deleteHistoryItem st itemId).1.events, e ∈ st.events) := by
  have hev : (runCaptures { initialState with stream := some () } ins).events
      = ins.map mkEvent := by
    rw [runCaptures_events _ _ rfl]
    simp [initialState]
  have hids : ((runCaptures { initialState with stream := some () } ins).events.map
      EventRecord.id) = ins.map CaptureInput.now := by
    rw [hev, List.map_map]
    rfl
  refine ⟨?_, ?_, ?_⟩
  · rw [hids]; exact hmono
  · rw [hids]; exact hmono.imp (fun h => ne_of_lt h)
  · intro st itemId e he
    have heq : (deleteHistoryItem st itemId).1.events
        = st.events.filter (fun event => event.id != itemId) := rfl
    rw [heq] at he
    exact (List.mem_filter.mp he).1

/-- Witness for the amended C7: two captures at instants 1 and 2 give a
duplicate-free id list. -/
theorem C7_witness :
    ((runCaptures { initialState with stream := some () }
        [⟨1, "i1", "l1", "d1"⟩, ⟨2, "i2", "l2", "d2"⟩]).events.map
       EventRecord.id).Nodup :=
  (C7_amended_ids_unique_monotone
      [⟨1, "i1", "l1", "d1"⟩, ⟨2, "i2", "l2", "d2"⟩] (by decide)).2.1

/-- Claim C8: both mutation paths leave the persisted mirror equal to the
in-memory list in the same step — after a capture (with a live stream) and
after a delete commit, the storage holds exactly the current event list. -/
theorem C8_mutations_keep_mirror_synced (st : AppState) (inp : CaptureInput)
    (itemId : Int) (h : st.stream = some ()) :
    (eventButtonClick st inp).storage
      = Stored.valid (eventButtonClick st inp).events
  ∧ (deleteHistoryItem st itemId).1.storage
      = Stored.valid (deleteHistoryItem st itemId).1.events := by
  refine ⟨?_, rfl⟩
  simp [eventButtonClick, h, showNotification, sendToDashboard,
        addEventToHistory, saveEvent]

/-- Witness for C8 on a streaming initial state. -/
theorem C8_witness :
    (eventButtonClick { initialState with stream := some () }
        ⟨1, "i", "l", "d"⟩).storage
      = Stored.valid (eventButtonClick { initialState with stream := some () }
          ⟨1, "i", "l", "d"⟩).events
  ∧ (deleteHistoryItem { initialState with stream := some () } 7).1.storage
      = Stored.valid
          (deleteHistoryItem { initialState with stream := some () } 7).1.events :=
  C8_mutations_keep_mirror_synced
    { initialState with stream := some () } ⟨1, "i", "l", "d"⟩ 7 rfl

/-- Claim C9: with no live stream, the capture click only shows the error
toast — no record is created and events, storage, history items and
dashboard writes are all unchanged. -/
theorem C9_capture_without_stream_noop (st : AppState) (inp : CaptureInput)
    (h : st.stream = none) :
    eventButtonClick st inp
      = { st with toasts := st.toasts ++ ["Camera not available"] } := by
  simp [eventButtonClick, h, showNotification]

/-- Witness for C9 on the fresh initial state. -/
theorem C9_witness :
    eventButtonClick initialState ⟨1, "i", "l", "d"⟩
      = { initialState with
            toasts := initialState.toasts ++ ["Camera not available"] } :=
  C9_capture_without_stream_noop initialState ⟨1, "i", "l", "d"⟩ rfl

/-- Claim C10: the commit decision uses the last leftward displacement, not
the final pointer position — after a move past the hard threshold, any
number of rightward moves before release leave the stored translate intact,
so both drag-end paths commit and the record is filtered out of the store. -/
theorem C10_commit_on_last_leftward_offset (st : AppState) (itemId : Int)
    (x0 xc : Int) (xs ys : List Int)
    (hc : xc - x0 < -100) (hy : ∀ y ∈ ys, 0 ≤ y - x0) :
    (handleTouchEnd (runTouchMoves (handleTouchStart dragInit x0)
        (xs ++ xc :: ys))).2 = EndOutcome.commit
  ∧ (endDragTouch st itemId (runTouchMoves (handleTouchStart dragInit x0)
        (xs ++ xc :: ys))).1.events
      = st.events.filter (fun event => event.id != itemId)
  ∧ (handleMouseUp (runMouseMoves (handleMouseDown dragInit x0)
        (xs ++ xc :: ys))).2 = some EndOutcome.commit
  ∧ (endDragMouse st itemId (runMouseMoves (handleMouseDown dragInit x0)
        (xs ++ xc :: ys))).1.events
      = st.events.filter (fun event => event.id != itemId) := by
  have hs1X : (runTouchMoves (handleTouchStart dragInit x0) xs).startX = x0 := by
    rw [runTouchMoves_startX]; rfl
  have hs1D : (runTouchMoves (handleTouchStart dragInit x0) xs).isDragging = true := by
    rw [runTouchMoves_isDragging]; rfl
  have hneg : xc - x0 < 0 := by omega
  have hstep : handleTouchMove (runTouchMoves (handleTouchStart dragInit x0) xs) xc
      = { runTouchMoves (handleTouchStart dragInit x0) xs with
            currentTranslate := xc - x0,
            deleteReady := decide (xc - x0 < -80) } := by
    simp [handleTouchMove, hs1X, hs1D, hneg]
  have hys : runTouchMoves
      (handleTouchMove (runTouchMoves (handleTouchStart dragInit x0) xs) xc) ys
      = handleTouchMove (runTouchMoves (handleTouchStart dragInit x0) xs) xc := by
    apply runTouchMoves_rightward
    intro y hyy
    rw [hstep]
    simpa [hs1X] using hy y hyy
  have hfin : (runTouchMoves (handleTouchStart dragInit x0)
      (xs ++ xc :: ys)).currentTranslate = xc - x0 := by
    rw [runTouchMoves_append]
    show (runTouchMoves
      (handleTouchMove (runTouchMoves (handleTouchStart dragInit x0) xs) xc)
      ys).currentTranslate = xc - x0
    rw [hys, hstep]
  have hdrag : (runTouchMoves (handleTouchStart dragInit x0)
      (xs ++ xc :: ys)).isDragging = true := by
    rw [runTouchMoves_isDragging]; rfl
  have hcommitT : (handleTouchEnd (runTouchMoves (handleTouchStart dragInit x0)
      (xs ++ xc :: ys))).2 = EndOutcome.commit :=
    (handleTouchEnd_commit_iff _).mpr (by rw [hfin]; omega)
  have hcommitM : (handleMouseUp (runTouchMoves (handleTouchStart dragInit x0)
      (xs ++ xc :: ys))).2 = some EndOutcome.commit :=
    (handleMouseUp_commit_iff _ hdrag).mpr (by rw [hfin]; omega)
  refine ⟨hcommitT, ?_, ?_, ?_⟩
  · rw [endDragTouch_commit hcommitT]; rfl
  · rw [runMouseMoves_eq_runTouchMoves, handleMouseDown_eq_handleTouchStart]
    exact hcommitM
  · rw [runMouseMoves_eq_runTouchMoves, handleMouseDown_eq_handleTouchStart,
        endDragMouse_commit hcommitM]
    rfl

/-- Witness for C10: move to -120, then back to +10, release — commit. -/
theorem C10_witness :
    (handleTouchEnd (runTouchMoves (handleTouchStart dragInit 0)
        (([] : List Int) ++ (-120) :: [10]))).2 = EndOutcome.commit :=
  (C10_commit_on_last_leftward_offset initialState 5 0 (-120) [] [10]
      (by decide) (by decide)).1

end Cam
